import Mathlib

/-!
Verification of the agneez-poc adaptive-learning backend.

This file gives a shallow embedding, in Lean 4, of the pure data
transformations of the repository (the section classifier and difficulty
mapper of `app.py`, the retrieval/learning-path logic of `utils/rag.py`,
and the SQLite-backed progress tracker of `utils/progress_tracker.py`,
modelled as explicit state passing over association lists), and proves
the functional-correctness and invariant properties claimed for them.

Python floats are modelled as rationals (`ℚ`), SQL tables as association
lists keyed the way the tables are, `CURRENT_TIMESTAMP` as an explicit
`Nat` clock supplied by the caller, and Python `None` as `Option`.
-/

set_option autoImplicit false

namespace Agneez

/-! ### String helpers

Python's case-insensitive substring matching: `needle in hay` on
lowercased strings.  `tailsHas` walks every suffix of the haystack. -/

def tailsHas (needle : List Char) : List Char → Bool
  | [] => needle.isEmpty
  | c :: t => needle.isPrefixOf (c :: t) || tailsHas needle t

/-- Python's `needle in hay` for strings. -/
def strIn (needle hay : String) : Bool :=
  tailsHas needle.toList hay.toList

/-- Python's `s.lower()`: lowercase every character.  (Mapped over the
character list so that it reduces computationally; `String.map` in core
is defined by well-founded recursion over byte positions.) -/
def strLower (s : String) : String :=
  ⟨s.data.map Char.toLower⟩

/-! ### `app.py::_categorize_section_detailed`

The fixed, ordered rule table (`categorization_rules`) and the
first-match loop that assigns `(subtopic, sub_method)` to a section. -/

structure SubMethodRule where
  method : String
  keywords : List String
  deriving DecidableEq

structure SubtopicRule where
  subtopic : String
  keywords : List String
  sub_methods : List SubMethodRule
  deriving DecidableEq

/-- The `categorization_rules` table of `_categorize_section_detailed`,
in source order. -/
def categorizationRules : List SubtopicRule :=
  [ { subtopic := "patterns_introduction"
    , keywords := ["pattern", "square number", "sequence", "वर्ग संख्या"]
    , sub_methods :=
        [ { method := "visual_patterns", keywords := ["visual", "arrange", "dots", "blocks"] }
        , { method := "number_sequences", keywords := ["sequence", "series", "differences"] } ] }
  , { subtopic := "factorization_method"
    , keywords := ["factor", "factorization", "अवयव"]
    , sub_methods :=
        [ { method := "simple_factoring", keywords := ["simple", "basic factor"] }
        , { method := "splitting_middle_term", keywords := ["split", "middle term"] }
        , { method := "grouping", keywords := ["group", "grouping method"] } ] }
  , { subtopic := "formula_method"
    , keywords := ["formula", "quadratic formula", "सूत्र"]
    , sub_methods :=
        [ { method := "derivation", keywords := ["derive", "proof"] }
        , { method := "application", keywords := ["apply", "use formula"] }
        , { method := "discriminant_analysis", keywords := ["discriminant", "nature of roots"] } ] } ]

/-- Inner loop of `_categorize_section_detailed`: first sub-method whose
keywords match the (lowercased) body, else `"general"`. -/
def pickSubMethod (contentLower : String) : List SubMethodRule → String
  | [] => "general"
  | r :: rest =>
      if r.keywords.any (fun kw => strIn kw contentLower) then r.method
      else pickSubMethod contentLower rest

/-- Outer loop of `_categorize_section_detailed`: iterate the rule table,
skipping rules whose subtopic is not in `subtopics_config`; the first rule
with a keyword matching title or body wins. -/
def categorizeLoop (titleLower contentLower : String) (cfg : List String) :
    List SubtopicRule → String × String
  | [] => ("general", "general")
  | r :: rest =>
      if r.subtopic ∈ cfg then
        if r.keywords.any (fun kw => strIn kw titleLower || strIn kw contentLower) then
          (r.subtopic, pickSubMethod contentLower r.sub_methods)
        else categorizeLoop titleLower contentLower cfg rest
      else categorizeLoop titleLower contentLower cfg rest

/-- `app.py::_categorize_section_detailed(title, content, subtopics_config)`. -/
def categorizeSectionDetailed (title content : String) (cfg : List String) : String × String :=
  categorizeLoop (strLower title) (strLower content) cfg categorizationRules

/-- Does a rule's keyword set match (case-insensitive substring) title or body? -/
def ruleMatches (titleLower contentLower : String) (r : SubtopicRule) : Bool :=
  r.keywords.any (fun kw => strIn kw titleLower || strIn kw contentLower)

/-- The classification as the spec phrases it: the first subtopic rule
(restricted to the configured subtopics) whose keyword set matches title
or body wins; within it the first sub-method whose keywords match the
body, else `general`; no match at all gives `(general, general)`. -/
def specCategorize (title content : String) (cfg : List String) : String × String :=
  match (categorizationRules.filter (fun r => r.subtopic ∈ cfg)).find?
      (ruleMatches (strLower title) (strLower content)) with
  | none => ("general", "general")
  | some r =>
      ( r.subtopic
      , match r.sub_methods.find? (fun m => m.keywords.any (fun kw => strIn kw (strLower content))) with
        | none => "general"
        | some m => m.method )

lemma pickSubMethod_eq_find (contentLower : String) (ms : List SubMethodRule) :
    pickSubMethod contentLower ms =
      match ms.find? (fun m => m.keywords.any (fun kw => strIn kw contentLower)) with
      | none => "general"
      | some m => m.method := by
  induction ms with
  | nil => rfl
  | cons m rest ih =>
      by_cases h : (m.keywords.any (fun kw => strIn kw contentLower)) = true
      · simp [pickSubMethod, List.find?, h]
      · simp only [Bool.not_eq_true] at h
        simp [pickSubMethod, List.find?, h, ih]

lemma categorizeLoop_eq_find (titleLower contentLower : String) (cfg : List String)
    (rules : List SubtopicRule) :
    categorizeLoop titleLower contentLower cfg rules =
      match (rules.filter (fun r => r.subtopic ∈ cfg)).find?
          (ruleMatches titleLower contentLower) with
      | none => ("general", "general")
      | some r =>
          ( r.subtopic
          , match r.sub_methods.find? (fun m => m.keywords.any (fun kw => strIn kw contentLower)) with
            | none => "general"
            | some m => m.method ) := by
  induction rules with
  | nil => rfl
  | cons r rest ih =>
      by_cases hc : r.subtopic ∈ cfg
      · rw [List.filter_cons_of_pos (by simpa using hc)]
        by_cases hm : ruleMatches titleLower contentLower r = true
        · rw [List.find?_cons_of_pos _ hm]
          have hm' : (r.keywords.any fun kw => strIn kw titleLower || strIn kw contentLower) = true := hm
          simp [categorizeLoop, hc, hm', pickSubMethod_eq_find]
        · rw [List.find?_cons_of_neg _ (by simpa using hm)]
          simp only [Bool.not_eq_true] at hm
          have hm' : (r.keywords.any fun kw => strIn kw titleLower || strIn kw contentLower) = false := hm
          simp [categorizeLoop, hc, hm', ih]
      · rw [List.filter_cons_of_neg (by simpa using hc)]
        simp [categorizeLoop, hc, ih]

/-- Concrete sanity example for the classifier. -/
example :
    categorizeSectionDetailed "Solving by Factorization" "Split the middle term to factor."
      ["patterns_introduction", "factorization_method", "formula_method"] =
      ("factorization_method", "splitting_middle_term") := by rfl

example :
    categorizeSectionDetailed "Digestion" "The stomach digests food."
      ["patterns_introduction", "factorization_method", "formula_method"] =
      ("general", "general") := by rfl

/-! ### `app.py::_map_difficulty_to_number` and `GRADE_MAPPING` -/

/-- Python's two-argument `min`, kept as an executable if-then-else
(it agrees with `min` on `ℚ`, see `pyMin_eq_min`). -/
def pyMin (a b : ℚ) : ℚ :=
  if a ≤ b then a else b

lemma pyMin_eq_min (a b : ℚ) : pyMin a b = min a b :=
  (min_def a b).symm

/-- `base_difficulty` table; an unknown level is a `KeyError`, hence `none`. -/
def baseDifficulty : String → Option ℚ
  | "elementary" => some 1
  | "middle_school" => some 2
  | "high_school" => some 3
  | _ => none

/-- `app.py::_map_difficulty_to_number(level, grade, grade_range)`:
`min(5, base + 0.3 * grade_position)` with `grade_position` the index of
`grade` in `grade_range` (0 when absent). -/
def mapDifficultyToNumber (level : String) (grade : Int) (gradeRange : List Int) : Option ℚ :=
  match baseDifficulty level with
  | none => none
  | some b =>
      let gradePosition : Nat := if grade ∈ gradeRange then gradeRange.indexOf grade else 0
      some (pyMin 5 (b + (gradePosition : ℚ) * (3/10)))

/-- Per-level row of `GRADE_MAPPING`: every board maps to the same list. -/
def boardGrades (g : List Int) (board : String) : Option (List Int) :=
  if board = "CBSE" then some g
  else if board = "ICSE" then some g
  else if board = "SSC" then some g
  else none

/-- `app.py::GRADE_MAPPING` lookup. -/
def gradeMapping (level board : String) : Option (List Int) :=
  if level = "elementary" then boardGrades [3, 4, 5] board
  else if level = "middle_school" then boardGrades [6, 7, 8] board
  else if level = "high_school" then boardGrades [9, 10, 11, 12] board
  else none

lemma boardGrades_eq {g r : List Int} {board : String}
    (h : boardGrades g board = some r) : r = g := by
  unfold boardGrades at h
  split_ifs at h <;> exact (Option.some.inj h).symm

lemma indexOf_mono_of_sorted {l : List Int} (hl : l.Pairwise (· < ·)) {g1 g2 : Int}
    (h1 : g1 ∈ l) (h2 : g2 ∈ l) (hle : g1 ≤ g2) : l.indexOf g1 ≤ l.indexOf g2 := by
  induction l with
  | nil => cases h1
  | cons a t ih =>
      rcases List.pairwise_cons.mp hl with ⟨ha, ht⟩
      by_cases e1 : g1 = a
      · subst e1
        rw [List.indexOf_cons_self]
        exact Nat.zero_le _
      · have h1t : g1 ∈ t := by
          rcases List.mem_cons.mp h1 with h | h
          · exact absurd h e1
          · exact h
        by_cases e2 : g2 = a
        · exfalso
          subst e2
          exact absurd hle (not_le.mpr (ha g1 h1t))
        · have h2t : g2 ∈ t := by
            rcases List.mem_cons.mp h2 with h | h
            · exact absurd h e2
            · exact h
          rw [List.indexOf_cons_ne _ (Ne.symm e1), List.indexOf_cons_ne _ (Ne.symm e2)]
          exact Nat.succ_le_succ (ih ht h1t h2t)

lemma mapDifficulty_eq {level : String} {b : ℚ} (grade : Int) (range : List Int)
    (hb : baseDifficulty level = some b) (hg : grade ∈ range) :
    mapDifficultyToNumber level grade range =
      some (pyMin 5 (b + (range.indexOf grade : ℚ) * (3/10))) := by
  unfold mapDifficultyToNumber
  rw [hb]
  simp [hg]

lemma gradeMapping_sound {level board : String} {range : List Int}
    (h : gradeMapping level board = some range) :
    (∃ b, baseDifficulty level = some b) ∧ range.Pairwise (· < ·) := by
  unfold gradeMapping at h
  split_ifs at h with h1 h2 h3
  · subst h1
    rw [boardGrades_eq h]
    exact ⟨⟨1, rfl⟩, by decide⟩
  · subst h2
    rw [boardGrades_eq h]
    exact ⟨⟨2, rfl⟩, by decide⟩
  · subst h3
    rw [boardGrades_eq h]
    exact ⟨⟨3, rfl⟩, by decide⟩

/-- C6: `_categorize_section_detailed` is the deterministic first-match
iteration of the fixed ordered rule table: the first configured subtopic
rule whose keyword set matches (case-insensitive substring) title or
body wins, within it the first sub-method whose keywords match the body
wins (else `general`), and no match at all yields `(general, general)`. -/
theorem categorize_section_first_match (title content : String) (cfg : List String) :
    categorizeSectionDetailed title content cfg = specCategorize title content cfg := by
  unfold categorizeSectionDetailed specCategorize
  exact categorizeLoop_eq_find (strLower title) (strLower content) cfg categorizationRules

/-- C7: the difficulty number is `base(level) + 0.3 × index_of(grade, range)`
clamped to at most 5, with base elementary = 1, middle_school = 2,
high_school = 3; consequently within any `GRADE_MAPPING` grade range the
difficulty is non-decreasing as the grade increases. -/
theorem difficulty_formula_and_mono :
    (baseDifficulty "elementary" = some 1 ∧ baseDifficulty "middle_school" = some 2 ∧
      baseDifficulty "high_school" = some 3) ∧
    (∀ (level : String) (b : ℚ) (grade : Int) (range : List Int),
        baseDifficulty level = some b → grade ∈ range →
        mapDifficultyToNumber level grade range =
          some (pyMin 5 (b + (range.indexOf grade : ℚ) * (3/10)))) ∧
    (∀ (level board : String) (range : List Int) (g1 g2 : Int) (d1 d2 : ℚ),
        gradeMapping level board = some range → g1 ∈ range → g2 ∈ range → g1 ≤ g2 →
        mapDifficultyToNumber level g1 range = some d1 →
        mapDifficultyToNumber level g2 range = some d2 → d1 ≤ d2) := by
  refine ⟨⟨rfl, rfl, rfl⟩, fun level b grade range hb hg => mapDifficulty_eq grade range hb hg, ?_⟩
  intro level board range g1 g2 d1 d2 hmap h1 h2 hle hd1 hd2
  obtain ⟨⟨b, hb⟩, hsorted⟩ := gradeMapping_sound hmap
  rw [mapDifficulty_eq g1 range hb h1] at hd1
  rw [mapDifficulty_eq g2 range hb h2] at hd2
  rw [← Option.some.inj hd1, ← Option.some.inj hd2, pyMin_eq_min, pyMin_eq_min]
  refine min_le_min le_rfl (add_le_add_left ?_ b)
  refine mul_le_mul_of_nonneg_right ?_ (by norm_num)
  exact_mod_cast indexOf_mono_of_sorted hsorted h1 h2 hle

/-- Witness for C7 at concrete inputs: grade 9 and grade 11 inside the
high-school CBSE grade range. -/
theorem difficulty_formula_and_mono_witness :
    gradeMapping "high_school" "CBSE" = some [9, 10, 11, 12] ∧
    mapDifficultyToNumber "high_school" 9 [9, 10, 11, 12] = some 3 ∧
    mapDifficultyToNumber "high_school" 11 [9, 10, 11, 12] = some (18/5) ∧
    (3 : ℚ) ≤ 18/5 :=
  have h9 : mapDifficultyToNumber "high_school" 9 [9, 10, 11, 12] = some 3 := by
    simp [mapDifficultyToNumber, baseDifficulty, pyMin]
    norm_num
  have h11 : mapDifficultyToNumber "high_school" 11 [9, 10, 11, 12] = some (18/5) := by
    simp [mapDifficultyToNumber, baseDifficulty, pyMin, List.indexOf]
    norm_num [List.findIdx, List.findIdx.go, show ((9 : Int) == 11) = false from rfl,
      show ((10 : Int) == 11) = false from rfl, show ((11 : Int) == 11) = true from rfl]
  ⟨by decide, h9, h11,
    difficulty_formula_and_mono.2.2 "high_school" "CBSE" [9, 10, 11, 12] 9 11 3 (18/5)
      (by decide) (by decide) (by decide) (by decide) h9 h11⟩

/-! ### `utils/rag.py::EducationalRAG`

The metadata filter is a Python dict with optional keys; `None`/missing
keys are `none`.  The vector-store similarity search is an external
dependency and is passed in as a function argument
`search : namespace → question → top_k → filter → results`. -/

structure MetaFilter where
  board : Option String := none
  grade : Option Int := none
  language : Option String := none
  subtopic : Option String := none
  method_tags : Option String := none
  deriving DecidableEq

/-- A record returned by `similarity_search`; `result.get(key)` on a
missing key is `none`, `result.get('text', '')` defaults to `""`. -/
structure SearchResult where
  text : String := ""
  content_id : Option String := none
  subtopic : Option String := none
  sub_method : Option String := none
  method_tags : List String := []
  difficulty_level : Option ℚ := none
  content_type : Option String := none
  adaptation_weight : Option ℚ := none
  deriving DecidableEq

/-- `EducationalRAG.topic_index_map`. -/
def topicIndexMap (topic : String) : Option (String × String) :=
  if topic = "quadratic_equations" then some ("math_index", "algebra_quadratic_equations")
  else if topic = "digestive_system" then some ("science_index", "biology_digestive_system")
  else none

/-- The relaxed filter built on a zero-result search: only the original
filter's `board` and `grade` are retained. -/
def relaxedFilter (f : MetaFilter) : MetaFilter :=
  { board := f.board, grade := f.grade }

/-- `quadratic_equations` entry of the static suggestion table of
`_get_alternative_suggestions` (keyed by subtopic; `none` for a key that
is not in the per-topic dict). -/
def qeSuggestions (grade : Int) (board : String) : String → Option (List String)
  | "general" => some
      [ "What are the methods to solve quadratic equations in grade " ++ toString grade ++ "?"
      , "Show me " ++ board ++ " board examples of quadratic equations"
      , "How do I identify which method to use?" ]
  | "factorization_method" => some
      [ "How do I factor x² + 5x + 6?"
      , "What is splitting the middle term?"
      , "When can I use simple factoring?" ]
  | "formula_method" => some
      [ "What is the quadratic formula?"
      , "How do I use the discriminant?"
      , "Show me step-by-step formula application" ]
  | _ => none

/-- `digestive_system` entry of the static suggestion table. -/
def dsSuggestions (grade : Int) (board : String) : String → Option (List String)
  | "general" => some
      [ "What parts of digestive system do we study in grade " ++ toString grade ++ "?"
      , "Explain digestion process for " ++ board ++ " board"
      , "What are the main digestive organs?" ]
  | "anatomy_structure" => some
      [ "What are the organs in order?"
      , "Describe the structure of stomach"
      , "What is the function of each organ?" ]
  | "digestion_process" => some
      [ "How does mechanical digestion work?"
      , "What is chemical digestion?"
      , "Explain the complete digestion process" ]
  | _ => none

/-- `EducationalRAG._get_alternative_suggestions(topic, metadata_filter)`:
look the subtopic up in the per-topic table, falling back to the topic's
`general` list, and to `[]` for an unknown topic. -/
def getAlternativeSuggestions (topic : String) (f : MetaFilter) : List String :=
  let grade := f.grade.getD 9
  let board := f.board.getD "CBSE"
  let subtopic := f.subtopic.getD ""
  if topic = "quadratic_equations" then
    match qeSuggestions grade board subtopic with
    | some l => l
    | none => (qeSuggestions grade board "general").getD []
  else if topic = "digestive_system" then
    match dsSuggestions grade board subtopic with
    | some l => l
    | none => (dsSuggestions grade board "general").getD []
  else []

/-- The metadata projection built for each retrieved result. -/
structure ContentMeta where
  content_id : Option String
  subtopic : Option String
  sub_method : Option String
  method_tags : List String
  difficulty_level : Option ℚ
  content_type : Option String
  deriving DecidableEq

def SearchResult.toMeta (r : SearchResult) : ContentMeta :=
  { content_id := r.content_id, subtopic := r.subtopic, sub_method := r.sub_method
  , method_tags := r.method_tags, difficulty_level := r.difficulty_level
  , content_type := r.content_type }

/-- The shape of the dict returned by `answer_educational_question`.
The LLM-generated answer text is external I/O; the `answered` branch
carries the retrieved context and metadata the generation is given. -/
inductive RagResponse where
  | invalidTopic (topic : String)
  | noContent (metadataFilter : MetaFilter) (suggestions : List String)
  | answered (contextParts : List String) (contentMetadata : List ContentMeta)
      (filterApplied : MetaFilter) (topic : String) (resultsCount : Nat)
  deriving DecidableEq

/-- `EducationalRAG.answer_educational_question(question, topic,
metadata_filter)`: search with the given filter at `top_k=5`; on zero
results retry once with the relaxed filter; on zero results again return
the no-content response carrying the static suggestions. -/
def answerEducationalQuestion
    (search : String → String → Nat → MetaFilter → List SearchResult)
    (question topic : String) (f : MetaFilter) : RagResponse :=
  match topicIndexMap topic with
  | none => .invalidTopic topic
  | some (_, ns) =>
      let results := search ns question 5 f
      let results := if results.isEmpty then search ns question 5 (relaxedFilter f) else results
      if results.isEmpty then
        .noContent f (getAlternativeSuggestions topic f)
      else
        .answered (results.map (·.text)) (results.map SearchResult.toMeta) f topic results.length

lemma qeSuggestions_ne_nil (grade : Int) (board : String) (s : String) (l : List String)
    (h : qeSuggestions grade board s = some l) : l ≠ [] := by
  unfold qeSuggestions at h
  split at h <;> (try injection h with h) <;> (try subst h) <;> simp_all

/-- For topic `quadratic_equations` the suggestion lookup is non-empty for
every filter: each per-subtopic list is non-empty and so is the `general`
fallback. -/
lemma qe_suggestions_nonempty (f : MetaFilter) :
    getAlternativeSuggestions "quadratic_equations" f ≠ [] := by
  unfold getAlternativeSuggestions
  simp only [if_pos rfl]
  cases h : qeSuggestions (f.grade.getD 9) (f.board.getD "CBSE") (f.subtopic.getD "") with
  | some l => simpa using qeSuggestions_ne_nil _ _ _ _ h
  | none => simp [qeSuggestions]

/-- C2: on zero results the engine retries exactly once with a filter
retaining only the original `board` and `grade`; if the retry is also
empty it returns the well-formed no-content response whose suggestions
come from the static table, non-empty for `quadratic_equations` — and if
the retry finds results they are answered normally. -/
theorem answer_question_relaxation (search : String → String → Nat → MetaFilter → List SearchResult)
    (question topic : String) (f : MetaFilter) (idx ns : String)
    (htopic : topicIndexMap topic = some (idx, ns)) :
    (relaxedFilter f =
      { board := f.board, grade := f.grade, language := none, subtopic := none
      , method_tags := none }) ∧
    (search ns question 5 f = [] → search ns question 5 (relaxedFilter f) = [] →
      answerEducationalQuestion search question topic f =
        .noContent f (getAlternativeSuggestions topic f) ∧
      (topic = "quadratic_equations" → getAlternativeSuggestions topic f ≠ [])) ∧
    (search ns question 5 f = [] → search ns question 5 (relaxedFilter f) ≠ [] →
      answerEducationalQuestion search question topic f =
        .answered ((search ns question 5 (relaxedFilter f)).map (·.text))
          ((search ns question 5 (relaxedFilter f)).map SearchResult.toMeta) f topic
          (search ns question 5 (relaxedFilter f)).length) ∧
    (search ns question 5 f ≠ [] →
      answerEducationalQuestion search question topic f =
        .answered ((search ns question 5 f).map (·.text))
          ((search ns question 5 f).map SearchResult.toMeta) f topic
          (search ns question 5 f).length) := by
  refine ⟨rfl, ?_, ?_, ?_⟩
  · intro h1 h2
    refine ⟨?_, fun ht => ht ▸ qe_suggestions_nonempty f⟩
    unfold answerEducationalQuestion
    rw [htopic]
    simp [h1, h2]
  · intro h1 h2
    unfold answerEducationalQuestion
    rw [htopic]
    simp [h1, List.isEmpty_iff, h2]
  · intro h1
    unfold answerEducationalQuestion
    rw [htopic]
    simp [List.isEmpty_iff, h1]

/-- Witness for C2: with a search that always returns nothing, the
quadratic-equations query falls through both attempts to the no-content
response with non-empty suggestions. -/
theorem answer_question_relaxation_witness :
    answerEducationalQuestion (fun _ _ _ _ => []) "q" "quadratic_equations"
        { grade := some 9, board := some "CBSE", subtopic := some "formula_method" } =
      .noContent { grade := some 9, board := some "CBSE", subtopic := some "formula_method" }
        [ "What is the quadratic formula?"
        , "How do I use the discriminant?"
        , "Show me step-by-step formula application" ] ∧
    getAlternativeSuggestions "quadratic_equations"
        { grade := some 9, board := some "CBSE", subtopic := some "formula_method" } ≠ [] := by
  have h := answer_question_relaxation (fun _ _ _ _ => []) "q" "quadratic_equations"
    { grade := some 9, board := some "CBSE", subtopic := some "formula_method" }
    "math_index" "algebra_quadratic_equations" (by rfl)
  obtain ⟨-, h2, -, -⟩ := h
  obtain ⟨hn, hs⟩ := h2 rfl rfl
  exact ⟨by rw [hn]; rfl, hs rfl⟩

/-! ### `EducationalRAG.generate_learning_path`

The fixed `learning_progressions` table, and the mastery-driven branch
logic.  A Python `current_subtopic` of `None` or `""` (both falsy) is
modelled as `none`. -/

def qeSequence : List String :=
  ["patterns_introduction", "factorization_method", "completing_square",
   "formula_method", "applications"]

/-- `prerequisites` dict for `quadratic_equations`; `dict.get(k, [])`. -/
def qePrerequisites : String → List String
  | "patterns_introduction" => []
  | "factorization_method" => ["patterns_introduction", "basic_algebra"]
  | "completing_square" => ["factorization_method", "algebraic_manipulation"]
  | "formula_method" => ["completing_square", "square_roots"]
  | "applications" => ["formula_method", "word_problems"]
  | _ => []

def dsSequence : List String :=
  ["anatomy_structure", "digestion_process", "enzymes_secretions",
   "absorption_transport", "disorders_health"]

/-- `prerequisites` dict for `digestive_system`; `dict.get(k, [])`. -/
def dsPrerequisites : String → List String
  | "anatomy_structure" => []
  | "digestion_process" => ["anatomy_structure"]
  | "enzymes_secretions" => ["digestion_process", "basic_chemistry"]
  | "absorption_transport" => ["anatomy_structure", "cell_biology"]
  | "disorders_health" => ["digestion_process", "absorption_transport"]
  | _ => []

/-- `learning_progressions.get(topic, {})`: sequence and prerequisites. -/
def learningProgression (topic : String) : Option (List String × (String → List String)) :=
  if topic = "quadratic_equations" then some (qeSequence, qePrerequisites)
  else if topic = "digestive_system" then some (dsSequence, dsPrerequisites)
  else none

/-- `progression.get('sequence', [])`. -/
def topicSequence (topic : String) : List String :=
  match learningProgression topic with
  | some (s, _) => s
  | none => []

/-- `progression.get('prerequisites', {})` as a defaulted lookup. -/
def topicPrerequisites (topic : String) : String → List String :=
  match learningProgression topic with
  | some (_, p) => p
  | none => fun _ => []

/-- One entry of `next_steps`; the dict keys differ per branch, so the
absent ones are `none`. -/
structure NextStep where
  subtopic : String
  focus : String
  difficulty_adjustment : Option ℚ := none
  prerequisites_to_review : Option (List String) := none
  deriving DecidableEq

/-- The `learning_path` dict. `remediation` is only present when set. -/
structure LearningPath where
  current_subtopic : String
  current_grade : Int
  board : String
  mastery_level : ℚ
  recommendation : String
  next_steps : List NextStep
  remediation : Option (List String) := none
  deriving DecidableEq

/-- `EducationalRAG.generate_learning_path(topic, grade, board,
current_subtopic, mastery_level)`.  `none` is returned on the one failure
path: `sequence[0]` raising `IndexError` for an unknown topic with no
current subtopic (caught and turned into an error dict by the source). -/
def generateLearningPath (topic : String) (grade : Int) (board : String)
    (currentSubtopic : Option String) (masteryLevel : ℚ) : Option LearningPath :=
  let sequence := topicSequence topic
  let prerequisites := topicPrerequisites topic
  let currentIndex : Nat :=
    match currentSubtopic with
    | some cs => if cs ∈ sequence then sequence.indexOf cs else 0
    | none => 0
  match (match currentSubtopic with | some cs => some cs | none => sequence.head?) with
  | none => none
  | some cur =>
      let base : LearningPath :=
        { current_subtopic := cur, current_grade := grade, board := board
        , mastery_level := masteryLevel, recommendation := "", next_steps := [] }
      let path :=
        if masteryLevel < 7/10 then
          { base with
              recommendation := "Continue practicing current topic",
              next_steps := [{ subtopic := cur, focus := "practice_problems",
                               difficulty_adjustment := some (-(1/2)) }] }
        else if currentIndex < sequence.length - 1 then
          let nextSubtopic := sequence.getD (currentIndex + 1) ""
          { base with
              recommendation := "Progress to " ++ nextSubtopic,
              next_steps := [{ subtopic := nextSubtopic, focus := "introduction",
                               prerequisites_to_review := some (prerequisites nextSubtopic) }] }
        else
          { base with
              recommendation := "Explore advanced applications",
              next_steps := [{ subtopic := "applications", focus := "advanced_problems",
                               difficulty_adjustment := some (1/2) }] }
      let path :=
        if masteryLevel < 2/5 then
          let prereqs := match currentSubtopic with
            | some cs => prerequisites cs
            | none => []
          if prereqs ≠ [] then { path with remediation := some prereqs } else path
        else path
      some path

/-- Counterexample for C4 as stated: at mastery 0.3 < 0.4 on
`patterns_introduction` (whose prerequisite list is empty) the generated
path carries no `remediation` field at all — the code only attaches it
when the prerequisite list is non-empty. -/
theorem learning_path_remediation_cex :
    (3/10 : ℚ) < 2/5 ∧
    qePrerequisites "patterns_introduction" = [] ∧
    Option.map LearningPath.remediation
        (generateLearningPath "quadratic_equations" 9 "CBSE"
          (some "patterns_introduction") (3/10)) = some none := by
  refine ⟨by norm_num, rfl, ?_⟩
  norm_num [generateLearningPath, topicSequence, topicPrerequisites, learningProgression,
    qeSequence, qePrerequisites]

/-- C4 (amended): `generate_learning_path` is deterministic in
`(topic, current_subtopic, mastery_level)`; mastery < 0.7 gives the
stay/practice step with difficulty −0.5, mastery ≥ 0.7 advances to the
next subtopic with its prerequisite list (or, at the end of the
sequence, the +0.5 enrichment step), and the `remediation` field is
attached exactly when mastery < 0.4 AND the current subtopic's
prerequisite list is non-empty. -/
theorem learning_path_branches (topic : String) (grade : Int) (board : String)
    (cs : String) (m : ℚ) (seq : List String) (pre : String → List String)
    (hprog : learningProgression topic = some (seq, pre)) (hcs : cs ∈ seq) :
    ∃ p, generateLearningPath topic grade board (some cs) m = some p ∧
      p.current_subtopic = cs ∧ p.mastery_level = m ∧
      p.current_grade = grade ∧ p.board = board ∧
      (m < 7/10 →
        p.recommendation = "Continue practicing current topic" ∧
        p.next_steps = [{ subtopic := cs, focus := "practice_problems",
                          difficulty_adjustment := some (-(1/2)) }]) ∧
      (7/10 ≤ m → seq.indexOf cs < seq.length - 1 →
        p.recommendation = "Progress to " ++ seq.getD (seq.indexOf cs + 1) "" ∧
        p.next_steps = [{ subtopic := seq.getD (seq.indexOf cs + 1) "",
                          focus := "introduction",
                          prerequisites_to_review :=
                            some (pre (seq.getD (seq.indexOf cs + 1) "")) }]) ∧
      (7/10 ≤ m → ¬ seq.indexOf cs < seq.length - 1 →
        p.recommendation = "Explore advanced applications" ∧
        p.next_steps = [{ subtopic := "applications", focus := "advanced_problems",
                          difficulty_adjustment := some (1/2) }]) ∧
      p.remediation = (if m < 2/5 ∧ pre cs ≠ [] then some (pre cs) else none) := by
  have hseq : topicSequence topic = seq := by simp [topicSequence, hprog]
  have hpre : topicPrerequisites topic = pre := by simp [topicPrerequisites, hprog]
  unfold generateLearningPath
  simp only [hseq, hpre, if_pos hcs]
  refine ⟨_, rfl, ?_⟩
  by_cases hm : m < 7/10
  · by_cases h4 : m < 2/5
    · by_cases hp0 : pre cs ≠ []
      · rw [if_pos h4, if_pos hp0, if_pos hm]
        refine ⟨rfl, rfl, rfl, rfl, fun _ => ⟨rfl, rfl⟩, ?_, ?_, ?_⟩
        · intro h _; exact absurd hm (not_lt.mpr h)
        · intro h _; exact absurd hm (not_lt.mpr h)
        · rw [if_pos ⟨h4, hp0⟩]
      · rw [if_pos h4, if_neg hp0, if_pos hm]
        refine ⟨rfl, rfl, rfl, rfl, fun _ => ⟨rfl, rfl⟩, ?_, ?_, ?_⟩
        · intro h _; exact absurd hm (not_lt.mpr h)
        · intro h _; exact absurd hm (not_lt.mpr h)
        · rw [if_neg (fun h => hp0 h.2)]
    · rw [if_neg h4, if_pos hm]
      refine ⟨rfl, rfl, rfl, rfl, fun _ => ⟨rfl, rfl⟩, ?_, ?_, ?_⟩
      · intro h _; exact absurd hm (not_lt.mpr h)
      · intro h _; exact absurd hm (not_lt.mpr h)
      · rw [if_neg (fun h => h4 h.1)]
  · have h4 : ¬ m < 2/5 := fun h => hm (lt_trans h (by norm_num))
    by_cases hidx : seq.indexOf cs < seq.length - 1
    · rw [if_neg h4, if_neg hm, if_pos hidx]
      refine ⟨rfl, rfl, rfl, rfl, ?_, fun _ _ => ⟨rfl, rfl⟩, ?_, ?_⟩
      · intro h; exact absurd h hm
      · intro _ h; exact absurd hidx h
      · rw [if_neg (fun h => h4 h.1)]
    · rw [if_neg h4, if_neg hm, if_neg hidx]
      refine ⟨rfl, rfl, rfl, rfl, ?_, ?_, fun _ _ => ⟨rfl, rfl⟩, ?_⟩
      · intro h; exact absurd h hm
      · intro _ h; exact absurd h hidx
      · rw [if_neg (fun h => h4 h.1)]

/-- Witness for C4 (amended): mastery 0.9 on `patterns_introduction`
advances to `factorization_method` with its prerequisites, and no
remediation is attached. -/
theorem learning_path_branches_witness :
    ∃ p, generateLearningPath "quadratic_equations" 9 "CBSE"
        (some "patterns_introduction") (9/10) = some p ∧
      p.recommendation = "Progress to factorization_method" ∧
      p.next_steps = [{ subtopic := "factorization_method", focus := "introduction",
                        prerequisites_to_review :=
                          some ["patterns_introduction", "basic_algebra"] }] ∧
      p.remediation = none := by
  obtain ⟨p, hp, -, -, -, -, -, hadv, -, hrem⟩ :=
    learning_path_branches "quadratic_equations" 9 "CBSE" "patterns_introduction" (9/10)
      qeSequence qePrerequisites (by rfl) (by decide)
  refine ⟨p, hp, ?_⟩
  have hidx : qeSequence.indexOf "patterns_introduction" < qeSequence.length - 1 := by decide
  obtain ⟨h1, h2⟩ := hadv (by norm_num) hidx
  have hnext : qeSequence.getD (qeSequence.indexOf "patterns_introduction" + 1) "" =
      "factorization_method" := by decide
  rw [hnext] at h1 h2
  refine ⟨h1, ?_, ?_⟩
  · rw [h2]; rfl
  · rw [hrem, if_neg]
    rintro ⟨h4, -⟩
    norm_num at h4

/-! ### `EducationalRAG.get_adaptive_content`

`sorted(results, key=lambda x: (x.get('difficulty_level', 3),
-x.get('adaptation_weight', 1.0)))` is Python's stable sort by the
lexicographic tuple order; it is modelled by a stable insertion sort.
The diversity loop and final `[:5]` truncation follow. -/

/-- The sort key: difficulty ascending, adaptation weight descending. -/
def sortKey (r : SearchResult) : ℚ × ℚ :=
  (r.difficulty_level.getD 3, -(r.adaptation_weight.getD 1))

/-- Lexicographic (Python tuple) comparison of sort keys. -/
def keyLe (a b : SearchResult) : Prop :=
  (sortKey a).1 < (sortKey b).1 ∨
    ((sortKey a).1 = (sortKey b).1 ∧ (sortKey a).2 ≤ (sortKey b).2)

instance keyLe.dec : ∀ a b, Decidable (keyLe a b) := fun a b => by
  unfold keyLe
  infer_instance

lemma keyLe_total (a b : SearchResult) : keyLe a b ∨ keyLe b a := by
  unfold keyLe
  rcases lt_trichotomy (sortKey a).1 (sortKey b).1 with h | h | h
  · exact Or.inl (Or.inl h)
  · rcases le_total (sortKey a).2 (sortKey b).2 with h2 | h2
    · exact Or.inl (Or.inr ⟨h, h2⟩)
    · exact Or.inr (Or.inr ⟨h.symm, h2⟩)
  · exact Or.inr (Or.inl h)

lemma keyLe_trans {a b c : SearchResult} (h1 : keyLe a b) (h2 : keyLe b c) : keyLe a c := by
  unfold keyLe at *
  rcases h1 with h1 | ⟨h1, h1'⟩ <;> rcases h2 with h2 | ⟨h2, h2'⟩
  · exact Or.inl (lt_trans h1 h2)
  · exact Or.inl (h2 ▸ h1)
  · exact Or.inl (h1 ▸ h2)
  · exact Or.inr ⟨h1.trans h2, h1'.trans h2'⟩

/-- Stable insertion: the new element goes after every element whose key
is ≤ its key, so earlier equal-key elements keep their relative order. -/
def insertSorted (x : SearchResult) : List SearchResult → List SearchResult
  | [] => [x]
  | y :: ys => if keyLe y x then y :: insertSorted x ys else x :: y :: ys

/-- Python's stable `sorted` by `sortKey`. -/
def sortResults (l : List SearchResult) : List SearchResult :=
  l.foldl (fun acc x => insertSorted x acc) []

lemma insertSorted_perm (x : SearchResult) (l : List SearchResult) :
    (insertSorted x l).Perm (x :: l) := by
  induction l with
  | nil => exact List.Perm.refl _
  | cons y ys ih =>
      unfold insertSorted
      split_ifs
      · exact ((ih.cons y).trans (List.Perm.swap x y ys)).symm.symm
      · exact List.Perm.refl _

lemma mem_insertSorted {a x : SearchResult} {l : List SearchResult} :
    a ∈ insertSorted x l ↔ a = x ∨ a ∈ l :=
  ⟨fun h => by simpa using (insertSorted_perm x l).mem_iff.mp h,
   fun h => (insertSorted_perm x l).mem_iff.mpr (by simpa using h)⟩

lemma pairwise_insertSorted (x : SearchResult) {l : List SearchResult}
    (hl : l.Pairwise keyLe) : (insertSorted x l).Pairwise keyLe := by
  induction l with
  | nil => simp [insertSorted]
  | cons y ys ih =>
      rcases List.pairwise_cons.mp hl with ⟨hy, hys⟩
      unfold insertSorted
      split_ifs with h
      · refine List.pairwise_cons.mpr ⟨?_, ih hys⟩
        intro a ha
        rcases mem_insertSorted.mp ha with rfl | ha
        · exact h
        · exact hy a ha
      · rcases keyLe_total y x with h' | h'
        · exact absurd h' h
        · refine List.pairwise_cons.mpr ⟨?_, hl⟩
          intro a ha
          rcases List.mem_cons.mp ha with rfl | ha
          · exact h'
          · exact keyLe_trans h' (hy a ha)

lemma sortResults_perm_aux (l : List SearchResult) :
    ∀ acc, (l.foldl (fun acc x => insertSorted x acc) acc).Perm (l ++ acc) := by
  induction l with
  | nil => intro acc; simp
  | cons x xs ih =>
      intro acc
      have h1 := ih (insertSorted x acc)
      have h2 : (xs ++ insertSorted x acc).Perm (xs ++ x :: acc) :=
        List.Perm.append_left xs (insertSorted_perm x acc)
      have h3 : (xs ++ x :: acc).Perm (x :: (xs ++ acc)) := List.perm_middle
      simpa using (h1.trans h2).trans h3

/-- `sortResults` is a permutation of its input. -/
lemma sortResults_perm (l : List SearchResult) : (sortResults l).Perm l := by
  simpa using sortResults_perm_aux l []

lemma sortResults_pairwise_aux (l : List SearchResult) :
    ∀ acc, acc.Pairwise keyLe →
      (l.foldl (fun acc x => insertSorted x acc) acc).Pairwise keyLe := by
  induction l with
  | nil => intro acc h; simpa using h
  | cons x xs ih => intro acc h; exact ih _ (pairwise_insertSorted x h)

/-- `sortResults` output is sorted by the lexicographic key order. -/
lemma sortResults_pairwise (l : List SearchResult) : (sortResults l).Pairwise keyLe :=
  sortResults_pairwise_aux l [] (List.Pairwise.nil)

/-- The diversity selection loop of `get_adaptive_content`:
`if content_type not in content_types_seen or len(selected_content) < 5`. -/
def selectDiverse : List SearchResult → List SearchResult → List (Option String) →
    List SearchResult
  | [], sel, _ => sel
  | r :: rest, sel, seen =>
      if r.content_type ∉ seen ∨ sel.length < 5 then
        selectDiverse rest (sel ++ [r]) (r.content_type :: seen)
      else selectDiverse rest sel seen

/-- `get_adaptive_content`'s returned `adaptive_content` slate:
the selection loop over the sorted results, truncated to 5. -/
def adaptiveContentSlate (results : List SearchResult) : List SearchResult :=
  (selectDiverse (sortResults results) [] []).take 5

lemma selectDiverse_take_of_ge (l : List SearchResult) :
    ∀ sel seen, 5 ≤ sel.length → (selectDiverse l sel seen).take 5 = sel.take 5 := by
  induction l with
  | nil => intro sel seen _; rfl
  | cons r rest ih =>
      intro sel seen hlen
      unfold selectDiverse
      split_ifs
      · rw [ih _ _ (by simpa using Nat.le_succ_of_le hlen)]
        rw [List.take_append_eq_append_take, Nat.sub_eq_zero_of_le hlen]
        simp
      · exact ih _ _ hlen

lemma selectDiverse_take_of_lt (l : List SearchResult) :
    ∀ sel seen, sel.length < 5 → (selectDiverse l sel seen).take 5 = (sel ++ l).take 5 := by
  induction l with
  | nil => intro sel seen _; simp [selectDiverse]
  | cons r rest ih =>
      intro sel seen hlen
      unfold selectDiverse
      rw [if_pos (Or.inr hlen)]
      by_cases h5 : (sel ++ [r]).length < 5
      · rw [ih _ _ h5, List.append_assoc]
        rfl
      · have h5' : 5 ≤ (sel ++ [r]).length := not_lt.mp h5
        rw [selectDiverse_take_of_ge rest _ _ h5']
        have heq : sel ++ r :: rest = (sel ++ [r]) ++ rest := by simp
        rw [heq, List.take_append_of_le_length h5']

/-- C5 (amended): the slate is exactly the first `min(5, n)` results in
sorted order — because the loop's condition admits every result while
fewer than 5 are selected, the content-type diversity preference never
changes the returned slate. -/
theorem adaptive_slate_is_sorted_take5 (results : List SearchResult) :
    adaptiveContentSlate results = (sortResults results).take 5 ∧
    (adaptiveContentSlate results).length = min 5 results.length ∧
    (sortResults results).Perm results ∧
    (sortResults results).Pairwise keyLe := by
  have htake : adaptiveContentSlate results = (sortResults results).take 5 := by
    unfold adaptiveContentSlate
    rw [selectDiverse_take_of_lt _ _ _ (by norm_num)]
    rfl
  refine ⟨htake, ?_, sortResults_perm results, sortResults_pairwise results⟩
  rw [htake, List.length_take, (sortResults_perm results).length_eq]

/-- Modelled from the spec: first pass of the claimed diversity-preferring
greedy selection — take the first representative of every content type not
yet represented, in sorted order. -/
def specDistinctPass : List SearchResult → List (Option String) → List SearchResult
  | [], _ => []
  | r :: rest, seen =>
      if r.content_type ∈ seen then specDistinctPass rest seen
      else r :: specDistinctPass rest (r.content_type :: seen)

/-- Modelled from the spec: greedily select up to 5 results preferring
content types not yet represented; repeated content types are only added
once the distinct-type pool is exhausted. -/
def specDiverseSlate (results : List SearchResult) : List SearchResult :=
  let sorted := sortResults results
  let firsts := specDistinctPass sorted []
  (firsts ++ sorted.filter (fun r => r ∉ firsts)).take 5

/-- Six already-sorted results: five of content type `worked_example`
with ascending difficulty, one `theory` at the highest difficulty. -/
def exDiversity : List SearchResult :=
  [ { text := "e1", difficulty_level := some 1, content_type := some "worked_example" }
  , { text := "e2", difficulty_level := some 2, content_type := some "worked_example" }
  , { text := "e3", difficulty_level := some 3, content_type := some "worked_example" }
  , { text := "e4", difficulty_level := some 4, content_type := some "worked_example" }
  , { text := "e5", difficulty_level := some 5, content_type := some "worked_example" }
  , { text := "t1", difficulty_level := some 6, content_type := some "theory" } ]

/-- Counterexample for C5 as stated: on `exDiversity` the code's slate is
the five `worked_example` results — the not-yet-represented `theory`
result is never preferred over a repeated type, while the diversity
selection the spec describes would include it. -/
theorem adaptive_diversity_cex :
    (adaptiveContentSlate exDiversity).map (fun r => r.content_type) =
      [some "worked_example", some "worked_example", some "worked_example",
       some "worked_example", some "worked_example"] ∧
    some "theory" ∈ (specDiverseSlate exDiversity).map (fun r => r.content_type) ∧
    some "theory" ∉ (adaptiveContentSlate exDiversity).map (fun r => r.content_type) := by
  have h1 : (adaptiveContentSlate exDiversity).map (fun r => r.content_type) =
      [some "worked_example", some "worked_example", some "worked_example",
       some "worked_example", some "worked_example"] := rfl
  have h2 : (specDiverseSlate exDiversity).map (fun r => r.content_type) =
      [some "worked_example", some "theory", some "worked_example",
       some "worked_example", some "worked_example"] := rfl
  refine ⟨h1, ?_, ?_⟩
  · rw [h2]
    simp
  · rw [h1]
    simp

/-! ### `utils/progress_tracker.py::SQLiteProgressTracker`

The SQLite database is modelled as explicit state: each table is an
association list keyed by its `UNIQUE`/primary key (the `interactions`
log is a plain list).  `CURRENT_TIMESTAMP` is an explicit `Nat` tick
passed to every operation; Python `None` and SQL `NULL` are `none`;
`REAL` columns are `ℚ`; `time_taken` is a Python `int`, hence `Int`. -/

/-- First-match association-list lookup (the `UNIQUE` constraint keeps at
most one row per key, so first match is the row). -/
def alookup {κ β : Type} [DecidableEq κ] : List (κ × β) → κ → Option β
  | [], _ => none
  | (k, v) :: rest, key => if k = key then some v else alookup rest key

/-- `INSERT OR REPLACE` on a `UNIQUE` key: replace the row in place, or
append a fresh one. -/
def aupsert {κ β : Type} [DecidableEq κ] (key : κ) (v : β) : List (κ × β) → List (κ × β)
  | [] => [(key, v)]
  | (k, w) :: rest => if k = key then (key, v) :: rest else (k, w) :: aupsert key v rest

/-- `UPDATE ... WHERE key = ?`: modify the row if present, else no row is
touched. -/
def amodify {κ β : Type} [DecidableEq κ] (key : κ) (f : β → β) : List (κ × β) → List (κ × β)
  | [] => []
  | (k, w) :: rest => if k = key then (k, f w) :: rest else (k, w) :: amodify key f rest

@[simp] lemma alookup_nil {κ β : Type} [DecidableEq κ] (key : κ) :
    alookup ([] : List (κ × β)) key = none := rfl

@[simp] lemma alookup_aupsert_self {κ β : Type} [DecidableEq κ] (key : κ) (v : β)
    (m : List (κ × β)) : alookup (aupsert key v m) key = some v := by
  induction m with
  | nil => simp [aupsert, alookup]
  | cons kv rest ih =>
      obtain ⟨k, w⟩ := kv
      by_cases h : k = key
      · simp [aupsert, alookup, h]
      · simp [aupsert, alookup, h, ih]

lemma alookup_aupsert_ne {κ β : Type} [DecidableEq κ] {key key' : κ} (v : β)
    (m : List (κ × β)) (h : key' ≠ key) :
    alookup (aupsert key v m) key' = alookup m key' := by
  have h' : key ≠ key' := Ne.symm h
  induction m with
  | nil => simp [aupsert, alookup, h']
  | cons kv rest ih =>
      obtain ⟨k, w⟩ := kv
      by_cases hk : k = key
      · subst hk
        simp [aupsert, alookup, h']
      · simp [aupsert, alookup, hk, ih]

@[simp] lemma alookup_amodify_self {κ β : Type} [DecidableEq κ] (key : κ) (f : β → β)
    (m : List (κ × β)) : alookup (amodify key f m) key = (alookup m key).map f := by
  induction m with
  | nil => simp [amodify, alookup]
  | cons kv rest ih =>
      obtain ⟨k, w⟩ := kv
      by_cases h : k = key
      · simp [amodify, alookup, h]
      · simp [amodify, alookup, h, ih]

lemma alookup_amodify_ne {κ β : Type} [DecidableEq κ] {key key' : κ} (f : β → β)
    (m : List (κ × β)) (h : key' ≠ key) :
    alookup (amodify key f m) key' = alookup m key' := by
  have h' : key ≠ key' := Ne.symm h
  induction m with
  | nil => simp [amodify]
  | cons kv rest ih =>
      obtain ⟨k, w⟩ := kv
      by_cases hk : k = key
      · subst hk
        simp [amodify, alookup, h']
      · simp [amodify, alookup, hk, ih]

/-- An `UPDATE` whose `WHERE` matches no row leaves the table literally
unchanged. -/
lemma amodify_of_none {κ β : Type} [DecidableEq κ] {key : κ} (f : β → β)
    {m : List (κ × β)} (h : alookup m key = none) : amodify key f m = m := by
  induction m with
  | nil => rfl
  | cons kv rest ih =>
      obtain ⟨k, w⟩ := kv
      by_cases hk : k = key
      · simp [alookup, hk] at h
      · simp only [alookup, if_neg hk] at h
        simp [amodify, hk, ih h]

/-- A row of the `students` table. -/
structure StudentRow where
  grade : Int
  board : String
  language : String
  created_at : Nat
  last_active : Nat
  total_questions : Nat
  total_correct : Nat
  total_time_minutes : Int
  deriving DecidableEq

/-- A row of the `interactions` log. -/
structure InteractionRow where
  student_id : String
  content_id : String
  topic : String
  subtopic : Option String
  success : Bool
  time_taken : Int
  error_type : Option String
  difficulty_level : Option Int
  method_tags : List String
  question_text : Option String
  user_answer : Option String
  timestamp : Nat
  deriving DecidableEq

/-- A row of `topic_mastery` (keyed by `(student_id, topic)`). -/
structure TopicMasteryRow where
  total_attempts : Nat
  correct_attempts : Nat
  total_time : Int
  mastery_level : ℚ
  last_attempt : Nat
  deriving DecidableEq

/-- A row of `subtopic_mastery` (keyed by `(student_id, topic, subtopic)`). -/
structure SubtopicMasteryRow where
  attempts : Nat
  correct : Nat
  mastery_level : ℚ
  last_attempt : Nat
  deriving DecidableEq

/-- A row of `learning_sessions` (keyed by its autoincrement id).
`questions_correct` and `total_time_minutes` are `SUM(...)` results,
which are `NULL` over an empty set, hence `Option`. -/
structure SessionRow where
  student_id : String
  session_start : Nat
  session_end : Option Nat
  topics_covered : Option (List String)
  questions_attempted : Nat
  questions_correct : Option Int
  total_time_minutes : Option Int
  deriving DecidableEq

/-- A row of `error_patterns` (keyed by `(student_id, topic, error_type)`):
frequency and last occurrence. -/
structure ErrorPatternRow where
  frequency : Nat
  last_occurrence : Nat
  deriving DecidableEq

/-- The whole database. -/
structure DB where
  students : List (String × StudentRow)
  interactions : List InteractionRow
  topic_mastery : List ((String × String) × TopicMasteryRow)
  subtopic_mastery : List ((String × String × String) × SubtopicMasteryRow)
  learning_sessions : List (Nat × SessionRow)
  error_patterns : List ((String × String × String) × ErrorPatternRow)
  next_session_id : Nat
  deriving DecidableEq

def emptyDB : DB :=
  { students := [], interactions := [], topic_mastery := [], subtopic_mastery := [],
    learning_sessions := [], error_patterns := [], next_session_id := 1 }

/-- `create_or_update_student`: `INSERT OR REPLACE` listing only
`(student_id, grade, board, language, last_active)` — the unlisted
counter columns take their defaults (0). -/
def createOrUpdateStudent (db : DB) (t : Nat) (sid : String) (grade : Int)
    (board : String) (language : String := "english") : DB × Bool :=
  let row : StudentRow :=
    { grade := grade, board := board, language := language, created_at := t,
      last_active := t, total_questions := 0, total_correct := 0,
      total_time_minutes := 0 }
  ({ db with students := aupsert sid row db.students }, true)

/-- The arguments of one `record_interaction` call (with the call's
`CURRENT_TIMESTAMP` tick `t`).  A falsy Python `subtopic`/`error_type`
(`None` or `""`) is `none`. -/
structure ICall where
  t : Nat
  student_id : String
  content_id : String
  topic : String
  success : Bool
  subtopic : Option String := none
  time_taken : Int := 0
  error_type : Option String := none
  difficulty_level : Option Int := none
  method_tags : List String := []
  question_text : Option String := none
  user_answer : Option String := none
  deriving DecidableEq

/-- The `interactions` row a call appends. -/
def interactionRowOf (c : ICall) : InteractionRow :=
  { student_id := c.student_id, content_id := c.content_id, topic := c.topic,
    subtopic := c.subtopic, success := c.success, time_taken := c.time_taken,
    error_type := c.error_type, difficulty_level := c.difficulty_level,
    method_tags := c.method_tags, question_text := c.question_text,
    user_answer := c.user_answer, timestamp := c.t }

/-- Write 1: `INSERT INTO interactions ...`. -/
def riInsertInteraction (c : ICall) (db : DB) : DB :=
  { db with interactions := db.interactions ++ [interactionRowOf c] }

/-- The `SET` clause of the student-totals `UPDATE`. -/
def studentUpdate (c : ICall) (r : StudentRow) : StudentRow :=
  { r with total_questions := r.total_questions + 1,
           total_correct := r.total_correct + (if c.success then 1 else 0),
           total_time_minutes := r.total_time_minutes + c.time_taken,
           last_active := c.t }

/-- Write 2: `UPDATE students SET ... WHERE student_id = ?`. -/
def riUpdateStudent (c : ICall) (db : DB) : DB :=
  { db with students := amodify c.student_id (studentUpdate c) db.students }

/-- The replacement `topic_mastery` row built by `INSERT OR REPLACE`,
`COALESCE`-reading the previous counters; the unlisted `mastery_level`
column takes its default 0.0 on replace. -/
def tmInsertRow (c : ICall) (prev : Option TopicMasteryRow) : TopicMasteryRow :=
  { total_attempts := (match prev with | some r => r.total_attempts | none => 0) + 1,
    correct_attempts :=
      (match prev with | some r => r.correct_attempts | none => 0) +
        (if c.success then 1 else 0),
    total_time := (match prev with | some r => r.total_time | none => 0) + c.time_taken,
    mastery_level := 0,
    last_attempt := c.t }

/-- Write 3: `INSERT OR REPLACE INTO topic_mastery ...`. -/
def riUpsertTopicMastery (c : ICall) (db : DB) : DB :=
  let row := tmInsertRow c (alookup db.topic_mastery (c.student_id, c.topic))
  { db with topic_mastery := aupsert (c.student_id, c.topic) row db.topic_mastery }

/-- `SET mastery_level = CAST(correct_attempts AS REAL) / total_attempts`. -/
def tmRecompute (r : TopicMasteryRow) : TopicMasteryRow :=
  { r with mastery_level := (r.correct_attempts : ℚ) / (r.total_attempts : ℚ) }

/-- Write 4: `UPDATE topic_mastery SET mastery_level = ... WHERE ...`. -/
def riRecomputeTopicMastery (c : ICall) (db : DB) : DB :=
  { db with topic_mastery := amodify (c.student_id, c.topic) tmRecompute db.topic_mastery }

/-- The replacement `subtopic_mastery` row. -/
def stmInsertRow (c : ICall) (prev : Option SubtopicMasteryRow) : SubtopicMasteryRow :=
  { attempts := (match prev with | some r => r.attempts | none => 0) + 1,
    correct :=
      (match prev with | some r => r.correct | none => 0) + (if c.success then 1 else 0),
    mastery_level := 0,
    last_attempt := c.t }

/-- Write 5 (only when a subtopic is given): upsert `subtopic_mastery`. -/
def riUpsertSubtopicMastery (c : ICall) (st : String) (db : DB) : DB :=
  let row := stmInsertRow c (alookup db.subtopic_mastery (c.student_id, c.topic, st))
  { db with subtopic_mastery := aupsert (c.student_id, c.topic, st) row db.subtopic_mastery }

/-- `SET mastery_level = CAST(correct AS REAL) / attempts`. -/
def stmRecompute (r : SubtopicMasteryRow) : SubtopicMasteryRow :=
  { r with mastery_level := (r.correct : ℚ) / (r.attempts : ℚ) }

/-- Write 6 (only when a subtopic is given): recompute its mastery. -/
def riRecomputeSubtopicMastery (c : ICall) (st : String) (db : DB) : DB :=
  let tab := amodify (c.student_id, c.topic, st) stmRecompute db.subtopic_mastery
  { db with subtopic_mastery := tab }

/-- The replacement `error_patterns` row with incremented frequency. -/
def epInsertRow (c : ICall) (prev : Option ErrorPatternRow) : ErrorPatternRow :=
  { frequency := (match prev with | some r => r.frequency | none => 0) + 1,
    last_occurrence := c.t }

/-- Write 7 (only on a failed attempt with an error type): upsert
`error_patterns` with an incremented frequency. -/
def riUpsertErrorPattern (c : ICall) (e : String) (db : DB) : DB :=
  let row := epInsertRow c (alookup db.error_patterns (c.student_id, c.topic, e))
  { db with error_patterns := aupsert (c.student_id, c.topic, e) row db.error_patterns }

/-- The write sequence one `record_interaction` call executes on its
connection, in source order. -/
def recordInteractionWrites (c : ICall) : List (DB → DB) :=
  [riInsertInteraction c, riUpdateStudent c, riUpsertTopicMastery c,
   riRecomputeTopicMastery c] ++
  (match c.subtopic with
   | some st => [riUpsertSubtopicMastery c st, riRecomputeSubtopicMastery c st]
   | none => []) ++
  (match c.error_type, c.success with
   | some e, false => [riUpsertErrorPattern c e]
   | _, _ => [])

def runWrites (writes : List (DB → DB)) (db : DB) : DB :=
  writes.foldl (fun d w => w d) db

/-- `record_interaction` on the happy path: all writes committed,
`True` returned. -/
def recordInteraction (db : DB) (c : ICall) : DB × Bool :=
  (runWrites (recordInteractionWrites c) db, true)

/-- `record_interaction` under the `get_db_connection` context manager,
with an externally chosen failure point: if the `failAt`-th write raises,
the writes already applied to the open transaction are rolled back to the
committed state and the error is re-raised (`conn.rollback(); raise`);
otherwise everything is committed. -/
def recordInteractionWithFailure (failAt : Option Nat) (db : DB) (c : ICall) :
    DB × Option String :=
  let writes := recordInteractionWrites c
  match failAt with
  | none => (runWrites writes db, none)
  | some k =>
      if k < writes.length then (db, some "Database error")
      else (runWrites writes db, none)

def applyCall (db : DB) (c : ICall) : DB :=
  (recordInteraction db c).1

def applyCalls (db : DB) (cs : List ICall) : DB :=
  cs.foldl applyCall db

/-- `get_student_mastery`: the stored `mastery_level`, `0.0` when the row
does not exist. -/
def getStudentMastery (db : DB) (sid topic : String) : ℚ :=
  match alookup db.topic_mastery (sid, topic) with
  | some r => r.mastery_level
  | none => 0

/-- `start_learning_session`: insert a fresh session row, return its id. -/
def startLearningSession (db : DB) (t : Nat) (sid : String) : DB × Nat :=
  let id := db.next_session_id
  ({ db with
      learning_sessions := db.learning_sessions ++
        [(id, { student_id := sid, session_start := t, session_end := none,
                topics_covered := none, questions_attempted := 0,
                questions_correct := some 0, total_time_minutes := some 0 })],
        next_session_id := id + 1 }, id)

/-- `end_learning_session`: look the session up (`False` when absent),
recompute the statistics from the interactions of that student since
`session_start`, and overwrite the session row — there is no check that
the session was not ended before. -/
def endLearningSession (db : DB) (t : Nat) (sessionId : Nat)
    (topicsCovered : List String) : DB × Bool :=
  match alookup db.learning_sessions sessionId with
  | none => (db, false)
  | some s =>
      let relevant := db.interactions.filter
        (fun i => i.student_id = s.student_id ∧ s.session_start ≤ i.timestamp)
      let correct : Option Int :=
        if relevant.isEmpty then none else some (relevant.countP (fun i => i.success) : Int)
      let totalTime : Option Int :=
        if relevant.isEmpty then none else some (relevant.map (fun i => i.time_taken)).sum
      let f : SessionRow → SessionRow := fun r =>
        { r with session_end := some t, topics_covered := some topicsCovered,
                 questions_attempted := relevant.length, questions_correct := correct,
                 total_time_minutes := totalTime }
      ({ db with learning_sessions := amodify sessionId f db.learning_sessions }, true)

lemma applyCall_topic_mastery (db : DB) (c : ICall) :
    (applyCall db c).topic_mastery =
      amodify (c.student_id, c.topic) tmRecompute
        (aupsert (c.student_id, c.topic)
          (tmInsertRow c (alookup db.topic_mastery (c.student_id, c.topic)))
          db.topic_mastery) := by
  unfold applyCall recordInteraction runWrites recordInteractionWrites
  cases hsub : c.subtopic <;> cases herr : c.error_type <;> cases hsucc : c.success <;>
    simp [riInsertInteraction, riUpdateStudent, riUpsertTopicMastery, riRecomputeTopicMastery,
      riUpsertSubtopicMastery, riRecomputeSubtopicMastery, riUpsertErrorPattern]

lemma applyCall_students (db : DB) (c : ICall) :
    (applyCall db c).students = amodify c.student_id (studentUpdate c) db.students := by
  unfold applyCall recordInteraction runWrites recordInteractionWrites
  cases hsub : c.subtopic <;> cases herr : c.error_type <;> cases hsucc : c.success <;>
    simp [riInsertInteraction, riUpdateStudent, riUpsertTopicMastery, riRecomputeTopicMastery,
      riUpsertSubtopicMastery, riRecomputeSubtopicMastery, riUpsertErrorPattern]

lemma applyCall_interactions (db : DB) (c : ICall) :
    (applyCall db c).interactions = db.interactions ++ [interactionRowOf c] := by
  unfold applyCall recordInteraction runWrites recordInteractionWrites
  cases hsub : c.subtopic <;> cases herr : c.error_type <;> cases hsucc : c.success <;>
    simp [riInsertInteraction, riUpdateStudent, riUpsertTopicMastery, riRecomputeTopicMastery,
      riUpsertSubtopicMastery, riRecomputeSubtopicMastery, riUpsertErrorPattern]

lemma applyCall_sessions (db : DB) (c : ICall) :
    (applyCall db c).learning_sessions = db.learning_sessions := by
  unfold applyCall recordInteraction runWrites recordInteractionWrites
  cases hsub : c.subtopic <;> cases herr : c.error_type <;> cases hsucc : c.success <;>
    simp [riInsertInteraction, riUpdateStudent, riUpsertTopicMastery, riRecomputeTopicMastery,
      riUpsertSubtopicMastery, riRecomputeSubtopicMastery, riUpsertErrorPattern]

/-- C10: recording an interaction for a `student_id` with no row in
`students` still returns `True`, appends the interaction, and updates
topic mastery (and subtopic mastery when given) — while the `students`
table is left completely unchanged, so the running totals silently
undercount the interaction log. -/
theorem record_interaction_unknown_student (db : DB) (c : ICall)
    (h : alookup db.students c.student_id = none) :
    (recordInteraction db c).2 = true ∧
    (applyCall db c).students = db.students ∧
    (applyCall db c).interactions = db.interactions ++ [interactionRowOf c] ∧
    alookup (applyCall db c).topic_mastery (c.student_id, c.topic) =
      some (tmRecompute
        (tmInsertRow c (alookup db.topic_mastery (c.student_id, c.topic)))) := by
  refine ⟨rfl, ?_, applyCall_interactions db c, ?_⟩
  · rw [applyCall_students, amodify_of_none _ h]
  · rw [applyCall_topic_mastery]
    simp

/-- A concrete successful call on a student that has no `students` row. -/
def exUnknownCall : ICall :=
  { t := 3, student_id := "s1", content_id := "c1",
    topic := "quadratic_equations", success := true }

/-- Witness for C10: one successful call on an empty database. -/
theorem record_interaction_unknown_student_witness :
    alookup emptyDB.students "s1" = none ∧
    (applyCall emptyDB exUnknownCall).students = [] ∧
    alookup (applyCall emptyDB exUnknownCall).topic_mastery
      ("s1", "quadratic_equations") =
      some { total_attempts := 1, correct_attempts := 1, total_time := 0,
             mastery_level := 1, last_attempt := 3 } := by
  have h := record_interaction_unknown_student emptyDB exUnknownCall (by rfl)
  obtain ⟨-, hs, -, hm⟩ := h
  rw [show exUnknownCall.student_id = "s1" from rfl,
    show exUnknownCall.topic = "quadratic_equations" from rfl] at hm
  refine ⟨rfl, hs, ?_⟩
  rw [hm]
  norm_num [tmRecompute, tmInsertRow, emptyDB, exUnknownCall]

lemma applyCall_subtopic_mastery_some (db : DB) (c : ICall) (st : String)
    (hsub : c.subtopic = some st) :
    (applyCall db c).subtopic_mastery =
      amodify (c.student_id, c.topic, st) stmRecompute
        (aupsert (c.student_id, c.topic, st)
          (stmInsertRow c (alookup db.subtopic_mastery (c.student_id, c.topic, st)))
          db.subtopic_mastery) := by
  unfold applyCall recordInteraction runWrites recordInteractionWrites
  rw [hsub]
  cases herr : c.error_type <;> cases hsucc : c.success <;>
    simp [riInsertInteraction, riUpdateStudent, riUpsertTopicMastery, riRecomputeTopicMastery,
      riUpsertSubtopicMastery, riRecomputeSubtopicMastery, riUpsertErrorPattern]

lemma applyCall_error_patterns_some (db : DB) (c : ICall) (e : String)
    (herr : c.error_type = some e) (hfail : c.success = false) :
    (applyCall db c).error_patterns =
      aupsert (c.student_id, c.topic, e)
        (epInsertRow c (alookup db.error_patterns (c.student_id, c.topic, e)))
        db.error_patterns := by
  unfold applyCall recordInteraction runWrites recordInteractionWrites
  rw [herr, hfail]
  cases hsub : c.subtopic <;>
    simp [riInsertInteraction, riUpdateStudent, riUpsertTopicMastery, riRecomputeTopicMastery,
      riUpsertSubtopicMastery, riRecomputeSubtopicMastery, riUpsertErrorPattern]

/-- C9: `record_interaction` is atomic.  Executed under
`get_db_connection` with an arbitrary failure point, either every
constituent write is committed — the interaction appended, the student
totals incremented, topic mastery upserted and recomputed, subtopic
mastery likewise when a subtopic is given, the error pattern incremented
on a failed attempt with an error type — or the transaction is rolled
back to the pre-call state and the error is re-raised, never swallowed. -/
theorem record_interaction_atomic (db : DB) (c : ICall) (failAt : Option Nat) :
    (recordInteractionWithFailure failAt db c = ((recordInteraction db c).1, none) ∧
      (recordInteraction db c).1.interactions = db.interactions ++ [interactionRowOf c] ∧
      (recordInteraction db c).1.students =
        amodify c.student_id (studentUpdate c) db.students ∧
      alookup (recordInteraction db c).1.topic_mastery (c.student_id, c.topic) =
        some (tmRecompute
          (tmInsertRow c (alookup db.topic_mastery (c.student_id, c.topic)))) ∧
      (∀ st, c.subtopic = some st →
        alookup (recordInteraction db c).1.subtopic_mastery (c.student_id, c.topic, st) =
          some (stmRecompute
            (stmInsertRow c (alookup db.subtopic_mastery (c.student_id, c.topic, st))))) ∧
      (∀ e, c.error_type = some e → c.success = false →
        alookup (recordInteraction db c).1.error_patterns (c.student_id, c.topic, e) =
          some (epInsertRow c (alookup db.error_patterns (c.student_id, c.topic, e))))) ∨
    recordInteractionWithFailure failAt db c = (db, some "Database error") := by
  have heffects :
      (recordInteraction db c).1.interactions = db.interactions ++ [interactionRowOf c] ∧
      (recordInteraction db c).1.students =
        amodify c.student_id (studentUpdate c) db.students ∧
      alookup (recordInteraction db c).1.topic_mastery (c.student_id, c.topic) =
        some (tmRecompute
          (tmInsertRow c (alookup db.topic_mastery (c.student_id, c.topic)))) ∧
      (∀ st, c.subtopic = some st →
        alookup (recordInteraction db c).1.subtopic_mastery (c.student_id, c.topic, st) =
          some (stmRecompute
            (stmInsertRow c (alookup db.subtopic_mastery (c.student_id, c.topic, st))))) ∧
      (∀ e, c.error_type = some e → c.success = false →
        alookup (recordInteraction db c).1.error_patterns (c.student_id, c.topic, e) =
          some (epInsertRow c (alookup db.error_patterns (c.student_id, c.topic, e)))) := by
    refine ⟨applyCall_interactions db c, applyCall_students db c, ?_, ?_, ?_⟩
    · rw [show (recordInteraction db c).1 = applyCall db c from rfl,
        applyCall_topic_mastery]
      simp
    · intro st hst
      rw [show (recordInteraction db c).1 = applyCall db c from rfl,
        applyCall_subtopic_mastery_some db c st hst]
      simp
    · intro e he hf
      rw [show (recordInteraction db c).1 = applyCall db c from rfl,
        applyCall_error_patterns_some db c e he hf]
      simp
  unfold recordInteractionWithFailure
  cases failAt with
  | none => exact Or.inl ⟨rfl, heffects⟩
  | some k =>
      by_cases hk : k < (recordInteractionWrites c).length
      · right
        simp [hk]
      · left
        refine ⟨?_, heffects⟩
        simp [hk, recordInteraction]

/-- A failed attempt with subtopic and error type, exercising all seven
writes of `record_interaction`. -/
def exFullCall : ICall :=
  { t := 1, student_id := "s2", content_id := "c2", topic := "quadratic_equations",
    success := false, subtopic := some "factorization_method",
    error_type := some "sign_mistakes" }

/-- Witness for C9: with no failure every write of the full call lands
(error pattern at frequency 1); with a failure at write 2 the state is
the untouched pre-call database and the error propagates. -/
theorem record_interaction_atomic_witness :
    recordInteractionWithFailure none emptyDB exFullCall =
      ((recordInteraction emptyDB exFullCall).1, none) ∧
    alookup (recordInteraction emptyDB exFullCall).1.error_patterns
      ("s2", "quadratic_equations", "sign_mistakes") =
      some { frequency := 1, last_occurrence := 1 } ∧
    recordInteractionWithFailure (some 2) emptyDB exFullCall =
      (emptyDB, some "Database error") := by
  have h1 := record_interaction_atomic emptyDB exFullCall none
  have h2 := record_interaction_atomic emptyDB exFullCall (some 2)
  rcases h1 with ⟨hok, -, -, -, -, herr⟩ | hbad
  · rcases h2 with ⟨hbad2, -⟩ | hfail
    · have := congrArg Prod.snd hbad2
      simp [recordInteractionWithFailure, exFullCall, recordInteractionWrites] at this
    · refine ⟨hok, ?_, hfail⟩
      have he := herr "sign_mistakes" rfl rfl
      rw [show exFullCall.student_id = "s2" from rfl,
        show exFullCall.topic = "quadratic_equations" from rfl] at he
      rw [he]
      rfl
  · have := congrArg Prod.snd hbad
    simp [recordInteractionWithFailure] at this

/-- The stored attempt counter for a `(student, topic)` pair, 0 when the
row does not exist. -/
def tmAttempts (db : DB) (sid topic : String) : Nat :=
  match alookup db.topic_mastery (sid, topic) with
  | some r => r.total_attempts
  | none => 0

/-- The stored correct counter for a `(student, topic)` pair. -/
def tmCorrect (db : DB) (sid topic : String) : Nat :=
  match alookup db.topic_mastery (sid, topic) with
  | some r => r.correct_attempts
  | none => 0

/-- Does a call target the given `(student, topic)` pair? -/
def callFor (sid topic : String) (c : ICall) : Bool :=
  c.student_id = sid ∧ c.topic = topic

lemma applyCall_tm_lookup_match (db : DB) (c : ICall) {sid topic : String}
    (h1 : c.student_id = sid) (h2 : c.topic = topic) :
    alookup (applyCall db c).topic_mastery (sid, topic) =
      some (tmRecompute (tmInsertRow c (alookup db.topic_mastery (sid, topic)))) := by
  subst h1
  subst h2
  rw [applyCall_topic_mastery]
  simp

lemma applyCall_tm_lookup_nomatch (db : DB) (c : ICall) {sid topic : String}
    (h : ¬(c.student_id = sid ∧ c.topic = topic)) :
    alookup (applyCall db c).topic_mastery (sid, topic) =
      alookup db.topic_mastery (sid, topic) := by
  rw [applyCall_topic_mastery]
  have hk : (sid, topic) ≠ (c.student_id, c.topic) := by
    intro e
    injection e with e1 e2
    exact h ⟨e1.symm, e2.symm⟩
  rw [alookup_amodify_ne _ _ hk, alookup_aupsert_ne _ _ hk]

/-- The mastery invariant maintained by `record_interaction` across a
whole sequence of calls: the counters accumulate exactly the matching
calls, every stored row keeps `mastery_level = correct/attempts`, and a
row never disappears. -/
lemma applyCalls_tm (sid topic : String) :
    ∀ (cs : List ICall) (db : DB),
      (∀ r, alookup db.topic_mastery (sid, topic) = some r →
        r.mastery_level = (r.correct_attempts : ℚ) / (r.total_attempts : ℚ)) →
      tmAttempts (applyCalls db cs) sid topic =
        tmAttempts db sid topic + (cs.filter (callFor sid topic)).length ∧
      tmCorrect (applyCalls db cs) sid topic =
        tmCorrect db sid topic + (cs.filter (callFor sid topic)).countP (fun c => c.success) ∧
      (∀ r, alookup (applyCalls db cs).topic_mastery (sid, topic) = some r →
        r.mastery_level = (r.correct_attempts : ℚ) / (r.total_attempts : ℚ)) ∧
      ((alookup db.topic_mastery (sid, topic)).isSome →
        (alookup (applyCalls db cs).topic_mastery (sid, topic)).isSome) := by
  intro cs
  induction cs with
  | nil => intro db hcons; exact ⟨rfl, rfl, hcons, fun h => h⟩
  | cons c cs ih =>
      intro db hcons
      have happ : applyCalls db (c :: cs) = applyCalls (applyCall db c) cs := rfl
      by_cases hmatch : c.student_id = sid ∧ c.topic = topic
      · have hlook := applyCall_tm_lookup_match db c hmatch.1 hmatch.2
        have hA1 : tmAttempts (applyCall db c) sid topic = tmAttempts db sid topic + 1 := by
          simp only [tmAttempts, hlook, tmRecompute, tmInsertRow]
        have hC1 : tmCorrect (applyCall db c) sid topic =
            tmCorrect db sid topic + (if c.success then 1 else 0) := by
          simp only [tmCorrect, hlook, tmRecompute, tmInsertRow]
        have hcons1 : ∀ r, alookup (applyCall db c).topic_mastery (sid, topic) = some r →
            r.mastery_level = (r.correct_attempts : ℚ) / (r.total_attempts : ℚ) := by
          intro r hr
          rw [hlook] at hr
          rw [← Option.some.inj hr]
          rfl
        obtain ⟨ihA, ihC, ihcons, ihpres⟩ := ih (applyCall db c) hcons1
        have hfilter : (c :: cs).filter (callFor sid topic) =
            c :: cs.filter (callFor sid topic) := by
          simp [List.filter_cons, callFor, hmatch.1, hmatch.2]
        refine ⟨?_, ?_, ihcons, ?_⟩
        · rw [happ, ihA, hA1, hfilter]
          simp [Nat.add_assoc, Nat.add_comm 1]
        · rw [happ, ihC, hC1, hfilter]
          rw [List.countP_cons]
          have : (if c.success then 1 else 0) = (if c.success = true then 1 else 0) := by
            cases c.success <;> rfl
          omega
        · intro _
          exact ihpres (by simp [hlook])
      · have hlook := applyCall_tm_lookup_nomatch db c hmatch
        have hcons1 : ∀ r, alookup (applyCall db c).topic_mastery (sid, topic) = some r →
            r.mastery_level = (r.correct_attempts : ℚ) / (r.total_attempts : ℚ) := by
          intro r hr
          rw [hlook] at hr
          exact hcons r hr
        obtain ⟨ihA, ihC, ihcons, ihpres⟩ := ih (applyCall db c) hcons1
        have hfilter : (c :: cs).filter (callFor sid topic) =
            cs.filter (callFor sid topic) := by
          simp only [List.filter_cons]
          rw [if_neg (by simpa [callFor] using hmatch)]
        refine ⟨?_, ?_, ihcons, ?_⟩
        · rw [happ, ihA, hfilter]
          simp [tmAttempts, hlook]
        · rw [happ, ihC, hfilter]
          simp [tmCorrect, hlook]
        · intro hpres
          exact ihpres (by rwa [hlook])

/-- C1: starting from a database with no `topic_mastery` row for the
pair, after any sequence of `record_interaction` calls the stored
mastery returned by `get_student_mastery` equals correct/attempts
recomputed from exactly the calls for that `(student, topic)` pair. -/
theorem mastery_recomputed (db : DB) (sid topic : String) (cs : List ICall)
    (hdb : alookup db.topic_mastery (sid, topic) = none) :
    getStudentMastery (applyCalls db cs) sid topic =
      ((cs.filter (callFor sid topic)).countP (fun c => c.success) : ℚ) /
      ((cs.filter (callFor sid topic)).length : ℚ) := by
  obtain ⟨hA, hC, hcons, -⟩ := applyCalls_tm sid topic cs db (by simp [hdb])
  have hA0 : tmAttempts db sid topic = 0 := by simp [tmAttempts, hdb]
  have hC0 : tmCorrect db sid topic = 0 := by simp [tmCorrect, hdb]
  rw [hA0, Nat.zero_add] at hA
  rw [hC0, Nat.zero_add] at hC
  cases hfin : alookup (applyCalls db cs).topic_mastery (sid, topic) with
  | none =>
      have hlen : (cs.filter (callFor sid topic)).length = 0 := by
        rw [← hA]
        simp [tmAttempts, hfin]
      have hcnt : (cs.filter (callFor sid topic)).countP (fun c => c.success) = 0 := by
        have := List.countP_le_length (p := fun c => c.success)
          (l := cs.filter (callFor sid topic))
        omega
      rw [hlen, hcnt]
      simp [getStudentMastery, hfin]
  | some r =>
      have hrA : r.total_attempts = (cs.filter (callFor sid topic)).length := by
        rw [← hA]
        simp [tmAttempts, hfin]
      have hrC : r.correct_attempts =
          (cs.filter (callFor sid topic)).countP (fun c => c.success) := by
        rw [← hC]
        simp [tmCorrect, hfin]
      have := hcons r hfin
      simp only [getStudentMastery, hfin]
      rw [this, hrA, hrC]

/-- The claim's concrete scenario: three interactions for student `S` on
`quadratic_equations` (two correct, one incorrect), then a fourth,
correct one. -/
def exCalls3 : List ICall :=
  [ { t := 1, student_id := "S", content_id := "c1",
      topic := "quadratic_equations", success := true }
  , { t := 2, student_id := "S", content_id := "c2",
      topic := "quadratic_equations", success := true }
  , { t := 3, student_id := "S", content_id := "c3",
      topic := "quadratic_equations", success := false } ]

def exCall4 : ICall :=
  { t := 4, student_id := "S", content_id := "c4",
    topic := "quadratic_equations", success := true }

/-- Witness for C1: the scenario yields mastery 2/3 and then 3/4. -/
theorem mastery_recomputed_witness :
    getStudentMastery (applyCalls emptyDB exCalls3) "S" "quadratic_equations" = 2/3 ∧
    getStudentMastery (applyCalls emptyDB (exCalls3 ++ [exCall4]))
      "S" "quadratic_equations" = 3/4 := by
  have h1 := mastery_recomputed emptyDB "S" "quadratic_equations" exCalls3 rfl
  have h2 := mastery_recomputed emptyDB "S" "quadratic_equations" (exCalls3 ++ [exCall4]) rfl
  constructor
  · rw [h1, show exCalls3.filter (callFor "S" "quadratic_equations") = exCalls3 from rfl,
      show exCalls3.countP (fun c => c.success) = 2 from rfl,
      show exCalls3.length = 3 from rfl]
    norm_num
  · rw [h2, show (exCalls3 ++ [exCall4]).filter (callFor "S" "quadratic_equations") =
        exCalls3 ++ [exCall4] from rfl,
      show (exCalls3 ++ [exCall4]).countP (fun c => c.success) = 3 from rfl,
      show (exCalls3 ++ [exCall4]).length = 4 from rfl]
    norm_num

lemma applyCall_student_lookup (db : DB) (c : ICall) (sid : String) :
    alookup (applyCall db c).students sid =
      if sid = c.student_id then (alookup db.students sid).map (studentUpdate c)
      else alookup db.students sid := by
  rw [applyCall_students]
  by_cases h : sid = c.student_id
  · subst h
    simp
  · rw [alookup_amodify_ne _ _ h, if_neg h]

/-- A call with a negative `time_taken` (a Python `int` so nothing stops
it) on an existing student. -/
def exNegCall : ICall :=
  { t := 1, student_id := "s1", content_id := "c",
    topic := "quadratic_equations", success := true, time_taken := -1 }

/-- The database with student `s1` registered (all totals 0). -/
def exStudentDB : DB :=
  (createOrUpdateStudent emptyDB 0 "s1" 9 "CBSE").1

/-- The row `create_or_update_student` writes for `s1`. -/
def exStudentRow : StudentRow :=
  { grade := 9, board := "CBSE", language := "english", created_at := 0,
    last_active := 0, total_questions := 0, total_correct := 0,
    total_time_minutes := 0 }

/-- Counterexample for C8 as stated: one `record_interaction` call with
`time_taken = -1` makes the stored `total_time_minutes` decrease from
0 to −1. -/
theorem student_time_decreases_cex :
    (alookup exStudentDB.students "s1").map (fun r => r.total_time_minutes) = some 0 ∧
    (alookup (applyCall exStudentDB exNegCall).students "s1").map
      (fun r => r.total_time_minutes) = some (-1) := by
  constructor
  · rfl
  · rw [applyCall_student_lookup]
    rfl

/-- C8 (amended): for every student row, `total_correct ≤ total_questions`
is preserved by any sequence of `record_interaction` calls, and both
counters never decrease; `total_time_minutes` never decreases provided
every call's `time_taken` is non-negative (a negative `time_taken` is
accepted and decreases it). -/
theorem student_totals_invariant (db : DB) (cs : List ICall) :
    ((∀ s r, alookup db.students s = some r → r.total_correct ≤ r.total_questions) →
      ∀ s r, alookup (applyCalls db cs).students s = some r →
        r.total_correct ≤ r.total_questions) ∧
    (∀ sid r, alookup db.students sid = some r →
      ∃ r', alookup (applyCalls db cs).students sid = some r' ∧
        r.total_questions ≤ r'.total_questions ∧
        r.total_correct ≤ r'.total_correct ∧
        ((∀ c ∈ cs, 0 ≤ c.time_taken) →
          r.total_time_minutes ≤ r'.total_time_minutes)) := by
  induction cs generalizing db with
  | nil => exact ⟨fun h => h, fun sid r hr => ⟨r, hr, le_rfl, le_rfl, fun _ => le_rfl⟩⟩
  | cons c cs ih =>
      have happ : applyCalls db (c :: cs) = applyCalls (applyCall db c) cs := rfl
      obtain ⟨ihinv, ihmono⟩ := ih (applyCall db c)
      constructor
      · intro hinv
        rw [happ]
        refine ihinv ?_
        intro s r hr
        rw [applyCall_student_lookup] at hr
        by_cases hs : s = c.student_id
        · rw [if_pos hs] at hr
          obtain ⟨r0, hr0, hmap⟩ := Option.map_eq_some'.mp hr
          have h0 := hinv s r0 hr0
          rw [← hmap]
          simp only [studentUpdate]
          cases c.success <;> simp <;> omega
        · rw [if_neg hs] at hr
          exact hinv s r hr
      · intro sid r hr
        have hstep : ∃ r₁, alookup (applyCall db c).students sid = some r₁ ∧
            r.total_questions ≤ r₁.total_questions ∧
            r.total_correct ≤ r₁.total_correct ∧
            (0 ≤ c.time_taken → r.total_time_minutes ≤ r₁.total_time_minutes) := by
          rw [applyCall_student_lookup]
          by_cases hs : sid = c.student_id
          · refine ⟨studentUpdate c r, ?_, ?_, ?_, ?_⟩
            · rw [if_pos hs, hr]
              rfl
            · simp [studentUpdate]
            · simp only [studentUpdate]
              cases c.success <;> simp
            · intro ht
              simp only [studentUpdate]
              omega
          · exact ⟨r, by rw [if_neg hs, hr], le_rfl, le_rfl, fun _ => le_rfl⟩
        obtain ⟨r₁, hr₁, hq1, hc1, ht1⟩ := hstep
        obtain ⟨r', hr', hq2, hc2, ht2⟩ := ihmono sid r₁ hr₁
        refine ⟨r', by rw [happ]; exact hr', hq1.trans hq2, hc1.trans hc2, ?_⟩
        intro htime
        exact (ht1 (htime c (by simp))).trans
          (ht2 (fun c' hc' => htime c' (by simp [hc'])))

/-- Witness for C8 (amended): from the registered student, two calls
(one success, one failure) keep `total_correct ≤ total_questions` and
leave the totals at (2, 1). -/
theorem student_totals_invariant_witness :
    (∀ s r, alookup exStudentDB.students s = some r →
      r.total_correct ≤ r.total_questions) ∧
    (∀ s r, alookup (applyCalls exStudentDB (exCalls3.take 2)).students s = some r →
      r.total_correct ≤ r.total_questions) ∧
    ∃ r', alookup (applyCalls exStudentDB (exCalls3.take 2)).students "s1" = some r' ∧
      (0 : Nat) ≤ r'.total_questions ∧ (0 : Nat) ≤ r'.total_correct := by
  have hstud : exStudentDB.students = [("s1", exStudentRow)] := rfl
  have hinit : ∀ s r, alookup exStudentDB.students s = some r →
      r.total_correct ≤ r.total_questions := by
    intro s r hr
    rw [hstud] at hr
    simp only [alookup] at hr
    split at hr
    · rw [← Option.some.inj hr]
      exact le_rfl
    · exact Option.noConfusion hr
  obtain ⟨hinv, hmono⟩ := student_totals_invariant exStudentDB (exCalls3.take 2)
  obtain ⟨r', hr', -, -, -⟩ := hmono "s1" exStudentRow rfl
  exact ⟨hinit, hinv hinit, r', hr', Nat.zero_le _, Nat.zero_le _⟩

/-- A database with one learning session (id 1, started at tick 0) and
that session already ended once at tick 5. -/
def exSessionDB : DB :=
  (startLearningSession emptyDB 0 "s1").1

def exEndedDB : DB :=
  (endLearningSession exSessionDB 5 1 ["quadratic_equations"]).1

/-- Counterexample for C3 as stated: ending session 1 a second time (at
tick 9) is neither a no-op nor reported not-found — it returns `True`
again and overwrites `session_end` from 5 to 9. -/
theorem end_session_twice_cex :
    (alookup exEndedDB.learning_sessions 1).map (fun r => r.session_end) =
      some (some 5) ∧
    (endLearningSession exEndedDB 9 1 ["quadratic_equations"]).2 = true ∧
    (alookup (endLearningSession exEndedDB 9 1 ["quadratic_equations"]).1.learning_sessions
      1).map (fun r => r.session_end) = some (some 9) := by
  refine ⟨rfl, rfl, rfl⟩

lemma endLearningSession_snd (db : DB) (t sid : Nat) (tc : List String) (s : SessionRow)
    (hs : alookup db.learning_sessions sid = some s) :
    (endLearningSession db t sid tc).2 = true := by
  unfold endLearningSession
  rw [hs]

lemma endLearningSession_sets_end (db : DB) (t sid : Nat) (tc : List String) (s : SessionRow)
    (hs : alookup db.learning_sessions sid = some s) :
    ∃ s', alookup (endLearningSession db t sid tc).1.learning_sessions sid = some s' ∧
      s'.session_end = some t := by
  unfold endLearningSession
  rw [hs]
  simp only [alookup_amodify_self, hs, Option.map_some']
  exact ⟨_, rfl, rfl⟩

/-- C3 (amended): `end_learning_session` has no already-ended guard.
A missing session id returns `False` and leaves the database unchanged;
an existing session — ended before or not — is updated again: the call
returns `True` and overwrites `session_end` (and the recomputed
statistics), so a second call at a later tick moves `session_end`. -/
theorem end_session_no_guard (db : DB) (t t' : Nat) (sid : Nat) (tc tc' : List String) :
    (alookup db.learning_sessions sid = none →
      endLearningSession db t sid tc = (db, false)) ∧
    (∀ s, alookup db.learning_sessions sid = some s →
      (endLearningSession db t sid tc).2 = true ∧
      (alookup (endLearningSession db t sid tc).1.learning_sessions sid).map
        (fun r => r.session_end) = some (some t) ∧
      (endLearningSession (endLearningSession db t sid tc).1 t' sid tc').2 = true ∧
      (alookup (endLearningSession (endLearningSession db t sid tc).1 t' sid
        tc').1.learning_sessions sid).map (fun r => r.session_end) = some (some t')) := by
  constructor
  · intro hnone
    unfold endLearningSession
    rw [hnone]
  · intro s hs
    obtain ⟨s₁, hs₁, hend₁⟩ := endLearningSession_sets_end db t sid tc s hs
    obtain ⟨s₂, hs₂, hend₂⟩ :=
      endLearningSession_sets_end (endLearningSession db t sid tc).1 t' sid tc' s₁ hs₁
    refine ⟨endLearningSession_snd db t sid tc s hs, ?_,
      endLearningSession_snd _ t' sid tc' s₁ hs₁, ?_⟩
    · rw [hs₁, Option.map_some', hend₁]
    · rw [hs₂, Option.map_some', hend₂]

/-- Witness for C3 (amended): the concrete one-session database. -/
theorem end_session_no_guard_witness :
    endLearningSession exSessionDB 99 2 [] = (exSessionDB, false) ∧
    (endLearningSession exSessionDB 5 1 ["quadratic_equations"]).2 = true ∧
    (endLearningSession exEndedDB 9 1 ["quadratic_equations"]).2 = true := by
  obtain ⟨hnone, hsome⟩ := end_session_no_guard exSessionDB 5 9 1
    ["quadratic_equations"] ["quadratic_equations"]
  obtain ⟨h1, -, h2, -⟩ := hsome
    { student_id := "s1", session_start := 0, session_end := none,
      topics_covered := none, questions_attempted := 0,
      questions_correct := some 0, total_time_minutes := some 0 } rfl
  obtain ⟨hnone2, -⟩ := end_session_no_guard exSessionDB 99 0 2 [] []
  exact ⟨hnone2 rfl, h1, h2⟩

end Agneez
